import Mathlib

/-!
Verification of the vehicle valuation engine of `automotive_lib/price_calculator.py`
(`DepreciationModel` and `PriceCalculator`).

Modelling conventions:
* Python floats are modelled as exact rationals (`ℚ`); all the constants in the
  source are short decimal literals, which are exact in `ℚ`.
* Python's builtin `round(x, n)` rounds to `n` decimal digits with ties going to
  the nearest even multiple (banker's rounding); it is modelled by `py_round`
  below, built on round-half-to-even over `ℚ`.
* `datetime.now().year` is an environment input; it is passed explicitly as a
  `now_year` argument to the constructor of `DepreciationModel`.
* Python float division by zero raises `ZeroDivisionError`; a computation that
  can raise is modelled with `Option`, `none` standing for the raised fault.
-/

/-- Round-half-to-even of a rational to an integer: nearest integer, ties going
to the even neighbour (the rounding of Python's builtin `round`). -/
def rhe (x : ℚ) : ℤ :=
  if x - ⌊x⌋ < 1/2 then ⌊x⌋
  else if 1/2 < x - ⌊x⌋ then ⌊x⌋ + 1
  else if ⌊x⌋ % 2 = 0 then ⌊x⌋ else ⌊x⌋ + 1

/-- Python's `round(x, n)`: round to `n` decimal digits, ties to even. -/
def py_round (x : ℚ) (n : ℕ) : ℚ :=
  (rhe (x * 10 ^ n) : ℚ) / 10 ^ n

theorem rhe_intCast (k : ℤ) : rhe (k : ℚ) = k := by
  simp [rhe]

theorem rhe_le (x : ℚ) : (rhe x : ℚ) ≤ x + 1/2 := by
  unfold rhe
  have hfl : (⌊x⌋ : ℚ) ≤ x := Int.floor_le x
  split
  · linarith
  · split
    · rename_i h1 h2
      push_neg at h1
      push_cast
      linarith
    · split
      · linarith
      · rename_i h1 h2 _
        push_neg at h1 h2
        have : x - (⌊x⌋ : ℚ) = 1/2 := le_antisymm h2 h1
        push_cast
        linarith

theorem le_rhe (x : ℚ) : x - 1/2 ≤ (rhe x : ℚ) := by
  unfold rhe
  have hlt : x < (⌊x⌋ : ℚ) + 1 := Int.lt_floor_add_one x
  split
  · rename_i h1
    linarith
  · split
    · push_cast; linarith
    · split
      · rename_i h1 h2 _
        push_neg at h1 h2
        linarith
      · push_cast; linarith

theorem abs_rhe_sub_le (x : ℚ) : |(rhe x : ℚ) - x| ≤ 1/2 := by
  rw [abs_le]
  constructor
  · linarith [le_rhe x]
  · linarith [rhe_le x]

theorem rhe_mono {x y : ℚ} (h : x ≤ y) : rhe x ≤ rhe y := by
  have hxy : ⌊x⌋ ≤ ⌊y⌋ := Int.floor_le_floor h
  rcases lt_or_eq_of_le hxy with hlt | heq
  · -- different floors: rhe x ≤ ⌊x⌋ + 1 ≤ ⌊y⌋ ≤ rhe y
    have h1 : rhe x ≤ ⌊x⌋ + 1 := by
      unfold rhe
      split
      · omega
      · split
        · omega
        · split <;> omega
    have h2 : ⌊y⌋ ≤ rhe y := by
      unfold rhe
      split
      · omega
      · split
        · omega
        · split <;> omega
    omega
  · -- same floor: compare the fractional parts
    unfold rhe
    rw [heq]
    have hr : x - (⌊y⌋ : ℚ) ≤ y - (⌊y⌋ : ℚ) := by linarith
    by_cases hx1 : x - (⌊y⌋ : ℚ) < 1/2
    · rw [if_pos hx1]
      split
      · omega
      · split
        · omega
        · split <;> omega
    · rw [if_neg hx1]
      push_neg at hx1
      by_cases hx2 : 1/2 < x - (⌊y⌋ : ℚ)
      · rw [if_pos hx2]
        have hy2 : 1/2 < y - (⌊y⌋ : ℚ) := lt_of_lt_of_le hx2 hr
        rw [if_neg (by linarith : ¬ (y - (⌊y⌋ : ℚ) < 1/2)), if_pos hy2]
      · rw [if_neg hx2]
        have hxe : x - (⌊y⌋ : ℚ) = 1/2 := le_antisymm (not_lt.mp hx2) hx1
        by_cases hy1 : y - (⌊y⌋ : ℚ) < 1/2
        · exact absurd (by linarith : (1:ℚ)/2 ≤ y - (⌊y⌋ : ℚ)) (not_le.mpr hy1)
        · rw [if_neg hy1]
          by_cases hy2 : 1/2 < y - (⌊y⌋ : ℚ)
          · rw [if_pos hy2]
            split <;> omega
          · rw [if_neg hy2]

theorem py_round_le (x : ℚ) (n : ℕ) : py_round x n ≤ x + 1 / (2 * 10 ^ n) := by
  unfold py_round
  have hpos : (0:ℚ) < 10 ^ n := by positivity
  rw [div_le_iff₀ hpos]
  calc (rhe (x * 10 ^ n) : ℚ) ≤ x * 10 ^ n + 1/2 := rhe_le _
    _ = (x + 1 / (2 * 10 ^ n)) * 10 ^ n := by field_simp; ring

theorem le_py_round (x : ℚ) (n : ℕ) : x - 1 / (2 * 10 ^ n) ≤ py_round x n := by
  unfold py_round
  have hpos : (0:ℚ) < 10 ^ n := by positivity
  rw [le_div_iff₀ hpos]
  calc (x - 1 / (2 * 10 ^ n)) * 10 ^ n = x * 10 ^ n - 1/2 := by field_simp; ring
    _ ≤ (rhe (x * 10 ^ n) : ℚ) := le_rhe _

theorem py_round_mono {x y : ℚ} (n : ℕ) (h : x ≤ y) : py_round x n ≤ py_round y n := by
  unfold py_round
  have hpos : (0:ℚ) < 10 ^ n := by positivity
  have h2 : ((rhe (x * 10 ^ n) : ℤ) : ℚ) ≤ ((rhe (y * 10 ^ n) : ℤ) : ℚ) := by
    exact_mod_cast rhe_mono (mul_le_mul_of_nonneg_right h (le_of_lt hpos))
  exact (div_le_div_iff_of_pos_right hpos).mpr h2

theorem abs_py_round_sub_le (x : ℚ) (n : ℕ) :
    |py_round x n - x| ≤ 1 / (2 * 10 ^ n) := by
  rw [abs_le]
  constructor
  · linarith [le_py_round x n]
  · linarith [py_round_le x n]

/-- A rational that is an integer multiple of `10^-n` is a fixed point of
`py_round · n`. -/
theorem py_round_eq_self {x : ℚ} {n : ℕ} (k : ℤ) (hk : x = (k : ℚ) / 10 ^ n) :
    py_round x n = x := by
  have hpos : (0:ℚ) < 10 ^ n := by positivity
  unfold py_round
  rw [hk, div_mul_cancel₀ _ (ne_of_gt hpos), rhe_intCast]

/-! ## DepreciationModel (`automotive_lib/price_calculator.py`) -/

/-- Annual depreciation rates by vehicle age (`DepreciationModel.DEPRECIATION_RATES`). -/
def DEPRECIATION_RATES : List (ℕ × ℚ) :=
  [(1, 0.20), (2, 0.15), (3, 0.12), (4, 0.10), (5, 0.08)]

/-- The rate used for elapsed year `year`:
`self.DEPRECIATION_RATES.get(year, 0.08)`. -/
def rate_for (year : ℕ) : ℚ := (DEPRECIATION_RATES.lookup year).getD 0.08

/-- State of a `DepreciationModel` instance after `__init__`. -/
structure DepreciationModel where
  original_price : ℚ
  year : ℤ
  age : ℤ

/-- The constructor `DepreciationModel(original_price, year)`:
`age = datetime.now().year - year`, with the current calendar year passed
explicitly as `now_year`. -/
def DepreciationModel.init (original_price : ℚ) (year now_year : ℤ) :
    DepreciationModel :=
  { original_price := original_price, year := year, age := now_year - year }

/-- The running `value` after the loop `for year in range(1, n+1)` of
`calculate_current_value` (shared with `get_depreciation_schedule`):
`n` multiplicative discounts applied to `op`. -/
def loop_value (op : ℚ) (n : ℕ) : ℚ :=
  (List.range' 1 n).foldl (fun value year => value * (1 - rate_for year)) op

/-- `DepreciationModel.calculate_current_value`: the loop runs over
`range(1, self.age + 1)`, i.e. `self.age.toNat` iterations; the result is
`round(max(value, self.original_price * 0.10), 2)`. -/
def DepreciationModel.calculate_current_value (m : DepreciationModel) : ℚ :=
  py_round (max (loop_value m.original_price m.age.toNat)
    (m.original_price * 0.10)) 2

/-- `DepreciationModel.get_depreciation_schedule`: the dict is modelled as an
association list; the loop runs over `range(1, min(self.age + 6, 16))` and
threads `value` while appending the rounded entries. -/
def DepreciationModel.get_depreciation_schedule (m : DepreciationModel) :
    List (ℕ × ℚ) :=
  ((List.range' 1 ((min (m.age + 6) 16 - 1).toNat)).foldl
    (fun (acc : ℚ × List (ℕ × ℚ)) (year : ℕ) =>
      let value := acc.1 * (1 - rate_for year)
      (value, acc.2 ++ [(year, py_round (max value (m.original_price * 0.10)) 2)]))
    (m.original_price, [(0, m.original_price)])).2

/-- `DepreciationModel.get_total_depreciation`. -/
def DepreciationModel.get_total_depreciation (m : DepreciationModel) : ℚ :=
  py_round (m.original_price - m.calculate_current_value) 2

/-- `DepreciationModel.get_depreciation_percentage`; dividing by an
`original_price` of zero raises `ZeroDivisionError`, modelled as `none`. -/
def DepreciationModel.get_depreciation_percentage (m : DepreciationModel) :
    Option ℚ :=
  if m.original_price = 0 then none
  else some (py_round (m.get_total_depreciation / m.original_price * 100) 1)

theorem loop_value_zero (op : ℚ) : loop_value op 0 = op := rfl

theorem loop_value_succ (op : ℚ) (n : ℕ) :
    loop_value op (n + 1) = loop_value op n * (1 - rate_for (n + 1)) := by
  unfold loop_value
  rw [List.range'_concat, List.foldl_append]
  simp [Nat.add_comm]

theorem rate_for_bounds (y : ℕ) : 0.08 ≤ rate_for y ∧ rate_for y ≤ 0.20 := by
  unfold rate_for DEPRECIATION_RATES
  simp only [List.lookup]
  split <;> try norm_num
  split <;> try norm_num
  split <;> try norm_num
  split <;> try norm_num
  split <;> norm_num

theorem rate_for_one : rate_for 1 = 0.20 := by
  simp [rate_for, DEPRECIATION_RATES, List.lookup_cons]

theorem rate_for_two : rate_for 2 = 0.15 := by
  simp [rate_for, DEPRECIATION_RATES, List.lookup_cons]

theorem rate_for_three : rate_for 3 = 0.12 := by
  simp [rate_for, DEPRECIATION_RATES, List.lookup_cons]

theorem rate_for_four : rate_for 4 = 0.10 := by
  simp [rate_for, DEPRECIATION_RATES, List.lookup_cons]

theorem rate_for_five : rate_for 5 = 0.08 := by
  simp [rate_for, DEPRECIATION_RATES, List.lookup_cons]

theorem rate_for_default {y : ℕ} (h : 5 < y) : rate_for y = 0.08 := by
  have h1 : (y == 1) = false := by simp; omega
  have h2 : (y == 2) = false := by simp; omega
  have h3 : (y == 3) = false := by simp; omega
  have h4 : (y == 4) = false := by simp; omega
  have h5 : (y == 5) = false := by simp; omega
  simp [rate_for, DEPRECIATION_RATES, List.lookup_cons, h1, h2, h3, h4, h5]

theorem loop_value_nonneg {op : ℚ} (h : 0 ≤ op) (n : ℕ) : 0 ≤ loop_value op n := by
  induction n with
  | zero => simpa [loop_value_zero] using h
  | succ n ih =>
    rw [loop_value_succ]
    have hb := rate_for_bounds (n + 1)
    nlinarith [ih, hb.1, hb.2]

theorem loop_value_step_le {op : ℚ} (h : 0 ≤ op) (n : ℕ) :
    loop_value op (n + 1) ≤ loop_value op n := by
  rw [loop_value_succ]
  have hb := rate_for_bounds (n + 1)
  have hnn := loop_value_nonneg h n
  nlinarith [hb.1, hb.2]

theorem loop_value_antitone {op : ℚ} (h : 0 ≤ op) {i j : ℕ} (hij : i ≤ j) :
    loop_value op j ≤ loop_value op i := by
  induction j with
  | zero => simp_all
  | succ j ih =>
    rcases Nat.lt_or_ge i (j + 1) with hlt | hge
    · exact le_trans (loop_value_step_le h j) (ih (Nat.lt_succ_iff.mp hlt))
    · have : i = j + 1 := le_antisymm hij hge
      rw [this]

theorem loop_value_le_self {op : ℚ} (h : 0 ≤ op) (n : ℕ) : loop_value op n ≤ op :=
  loop_value_antitone h (Nat.zero_le n)

theorem loop_value_mul (op : ℚ) (n : ℕ) : loop_value op n = op * loop_value 1 n := by
  induction n with
  | zero => simp [loop_value_zero]
  | succ n ih => rw [loop_value_succ, loop_value_succ, ih]; ring

theorem loop_value_one_15 : (1/5 : ℚ) ≤ loop_value 1 15 := by
  norm_num [loop_value, List.range', List.foldl,
    rate_for_one, rate_for_two, rate_for_three, rate_for_four, rate_for_five,
    rate_for_default (show 5 < 6 by norm_num),
    rate_for_default (show 5 < 7 by norm_num),
    rate_for_default (show 5 < 8 by norm_num),
    rate_for_default (show 5 < 9 by norm_num),
    rate_for_default (show 5 < 10 by norm_num),
    rate_for_default (show 5 < 11 by norm_num),
    rate_for_default (show 5 < 12 by norm_num),
    rate_for_default (show 5 < 13 by norm_num),
    rate_for_default (show 5 < 14 by norm_num),
    rate_for_default (show 5 < 15 by norm_num)]

/-- Within the first 15 elapsed years the undiscounted loop value stays above
one fifth of the original price. -/
theorem loop_value_ge_of_le_15 {op : ℚ} (h : 0 ≤ op) {k : ℕ} (hk : k ≤ 15) :
    op * (1/5) ≤ loop_value op k := by
  rw [loop_value_mul]
  have h1 : loop_value 1 15 ≤ loop_value 1 k := loop_value_antitone (by norm_num) hk
  have h2 := loop_value_one_15
  nlinarith

theorem loop_value_one_le {op : ℚ} (h : 0 ≤ op) {n : ℕ} (hn : 1 ≤ n) :
    loop_value op n ≤ op * 0.8 := by
  have h1 : loop_value op n ≤ loop_value op 1 := loop_value_antitone h hn
  have h2 : loop_value op 1 = op * 0.8 := by
    have : loop_value op 1 = loop_value op 0 * (1 - rate_for 1) := loop_value_succ op 0
    rw [this, loop_value_zero, rate_for_one]
    norm_num
  linarith

/-- The schedule loop's accumulator after `n` iterations: the threaded `value`
is `loop_value`, and the dict holds index `0` plus one rounded entry per
iterated year. -/
theorem schedule_fold (op : ℚ) (n : ℕ) :
    (List.range' 1 n).foldl
      (fun (acc : ℚ × List (ℕ × ℚ)) (year : ℕ) =>
        let value := acc.1 * (1 - rate_for year)
        (value, acc.2 ++ [(year, py_round (max value (op * 0.10)) 2)]))
      (op, [(0, op)]) =
    (loop_value op n,
      (0, op) :: (List.range' 1 n).map
        (fun y => (y, py_round (max (loop_value op y) (op * 0.10)) 2))) := by
  induction n with
  | zero => simp [loop_value_zero]
  | succ n ih =>
    rw [List.range'_concat, List.foldl_append, List.map_append, ih]
    simp only [List.foldl_cons, List.foldl_nil, List.map_cons, List.map_nil]
    rw [show 1 + 1 * n = n + 1 by omega, ← loop_value_succ]
    simp [List.cons_append]

theorem get_depreciation_schedule_eq (m : DepreciationModel) :
    m.get_depreciation_schedule =
      (0, m.original_price) ::
        (List.range' 1 ((min (m.age + 6) 16 - 1).toNat)).map
          (fun y => (y, py_round (max (loop_value m.original_price y)
            (m.original_price * 0.10)) 2)) := by
  unfold DepreciationModel.get_depreciation_schedule
  rw [schedule_fold]

theorem lookup_range'_map {f : ℕ → ℚ} {s n k : ℕ} (h1 : s ≤ k) (h2 : k < s + n) :
    ((List.range' s n).map (fun y => (y, f y))).lookup k = some (f k) := by
  induction n generalizing s with
  | zero => omega
  | succ n ih =>
    rw [List.range'_succ, List.map_cons, List.lookup_cons]
    by_cases hk : k = s
    · simp [hk]
    · have hb : (k == s) = false := by simp [hk]
      rw [hb]
      exact ih (by omega) (by omega)

theorem lookup_range'_map_inv {f : ℕ → ℚ} {s n k : ℕ} {v : ℚ}
    (h : ((List.range' s n).map (fun y => (y, f y))).lookup k = some v) :
    s ≤ k ∧ k < s + n ∧ v = f k := by
  induction n generalizing s with
  | zero => simp [List.range'] at h
  | succ n ih =>
    rw [List.range'_succ, List.map_cons, List.lookup_cons] at h
    by_cases hk : k = s
    · simp [hk] at h
      exact ⟨le_of_eq hk.symm, by omega, by rw [hk, h]⟩
    · have hb : (k == s) = false := by simp [hk]
      rw [hb] at h
      obtain ⟨ha, hb2, hc⟩ := ih h
      exact ⟨by omega, by omega, hc⟩

theorem schedule_lookup_zero (m : DepreciationModel) :
    m.get_depreciation_schedule.lookup 0 = some m.original_price := by
  rw [get_depreciation_schedule_eq, List.lookup_cons]
  simp

theorem schedule_lookup_pos (m : DepreciationModel) {k : ℕ} (h1 : 1 ≤ k)
    (h2 : k ≤ (min (m.age + 6) 16 - 1).toNat) :
    m.get_depreciation_schedule.lookup k =
      some (py_round (max (loop_value m.original_price k)
        (m.original_price * 0.10)) 2) := by
  rw [get_depreciation_schedule_eq, List.lookup_cons]
  have hb : (k == 0) = false := by simp; omega
  rw [hb]
  exact lookup_range'_map h1 (by omega)

theorem schedule_lookup_inv (m : DepreciationModel) {k : ℕ} {v : ℚ}
    (h : m.get_depreciation_schedule.lookup k = some v) :
    (k = 0 ∧ v = m.original_price) ∨
      (1 ≤ k ∧ k ≤ (min (m.age + 6) 16 - 1).toNat ∧
        v = py_round (max (loop_value m.original_price k)
          (m.original_price * 0.10)) 2) := by
  rw [get_depreciation_schedule_eq, List.lookup_cons] at h
  by_cases hk : k = 0
  · simp [hk] at h
    exact Or.inl ⟨hk, h.symm⟩
  · have hb : (k == 0) = false := by simp [hk]
    rw [hb] at h
    obtain ⟨ha, hb2, hc⟩ := lookup_range'_map_inv h
    exact Or.inr ⟨ha, by omega, hc⟩


/-- Python's `str.lower()`. (Structurally recursive over the character list,
so that concrete instances reduce in the kernel; on the ASCII table names
used by this module it lowercases exactly as Python does.) -/
def py_lower (s : String) : String := String.mk (s.data.map Char.toLower)

/-! ## PriceCalculator (`automotive_lib/price_calculator.py`) -/

/-- The `VehicleCondition` enum. -/
inductive VehicleCondition where
  | EXCELLENT
  | GOOD
  | FAIR
  | POOR
deriving DecidableEq

/-- The numeric value carried by each `VehicleCondition` member. -/
def VehicleCondition.value : VehicleCondition → ℚ
  | .EXCELLENT => 1.0
  | .GOOD => 0.85
  | .FAIR => 0.70
  | .POOR => 0.50

/-- `PriceCalculator.MAKE_FACTORS`. -/
def MAKE_FACTORS : List (String × ℚ) :=
  [("toyota", 1.10), ("honda", 1.08), ("ford", 1.00), ("chevrolet", 0.98),
   ("bmw", 1.15), ("mercedes", 1.20), ("audi", 1.12), ("tesla", 1.25),
   ("default", 1.00)]

namespace PriceCalculator

/-- `self.MAKE_FACTORS.get(make.lower(), self.MAKE_FACTORS['default'])`.
The `'default'` key is present in the table, so the inner access always
succeeds (its `getD 0` arm is unreachable) and yields `1.00`. -/
def make_factor_of (make : String) : ℚ :=
  (MAKE_FACTORS.lookup (py_lower make)).getD ((MAKE_FACTORS.lookup "default").getD 0)

/-- The mileage factor of `calculate_market_value`: the conditional expression
guarded by `expected_mileage > 0`, then the clamp
`max(0.7, min(1.3, mileage_factor))`. -/
def mileage_factor_of (age : ℤ) (mileage : ℚ) : ℚ :=
  let expected_mileage : ℚ := (age : ℚ) * 12000
  let mileage_diff := expected_mileage - mileage
  let mileage_factor : ℚ :=
    if expected_mileage > 0 then 1 + (mileage_diff / expected_mileage * 0.1) else 1
  max 0.7 (min 1.3 mileage_factor)

/-- The numeric fields of the dict returned by `calculate_market_value`.
The `'vehicle'` label and the three `"%+.1f%"`-formatted strings are display
formatting; the `*_adjustment` fields here hold the numbers being formatted,
`(factor - 1) * 100`. -/
structure ValuationResult where
  base_price : ℚ
  depreciated_value : ℚ
  make_adjustment : ℚ
  condition_adjustment : ℚ
  mileage_adjustment : ℚ
  estimated_value : ℚ
  depreciation_total : ℚ
  depreciation_percent : ℚ
deriving DecidableEq

/-- `PriceCalculator.calculate_market_value`; Python's defaults are
`condition=VehicleCondition.GOOD` and `mileage=50000`, passed explicitly here.
`get_depreciation_percentage` raises `ZeroDivisionError` when `base_price`
is zero, hence the `Option`. -/
def calculate_market_value (make model : String) (year : ℤ) (base_price : ℚ)
    (condition : VehicleCondition) (mileage : ℚ) (now_year : ℤ) :
    Option ValuationResult :=
  let depreciation_model := DepreciationModel.init base_price year now_year
  let depreciated_value := depreciation_model.calculate_current_value
  let make_factor := make_factor_of make
  let condition_factor := condition.value
  let mileage_factor := mileage_factor_of depreciation_model.age mileage
  let final_value := depreciated_value * make_factor * condition_factor * mileage_factor
  (depreciation_model.get_depreciation_percentage).map (fun dp =>
    { base_price := base_price
      depreciated_value := depreciated_value
      make_adjustment := (make_factor - 1) * 100
      condition_adjustment := (condition_factor - 1) * 100
      mileage_adjustment := (mileage_factor - 1) * 100
      estimated_value := py_round final_value 2
      depreciation_total := depreciation_model.get_total_depreciation
      depreciation_percent := dp })

/-- One element of the `vehicles` list passed to `compare_vehicles`. -/
structure Vehicle where
  make : String
  model : String
  year : ℤ
  price : ℚ

/-- A `calculate_market_value` dict with the `'value_score'` key added by
`compare_vehicles`. -/
structure ComparedVehicle where
  data : ValuationResult
  value_score : ℚ
deriving DecidableEq

/-- The loop body of `compare_vehicles` for one vehicle: market value at
condition `GOOD` (and the default mileage), plus
`value_score = round(estimated_value / price * 100, 1)`. -/
def score_vehicle (v : Vehicle) (now_year : ℤ) : Option ComparedVehicle :=
  (calculate_market_value v.make v.model v.year v.price
      VehicleCondition.GOOD 50000 now_year).map
    (fun value_data =>
      { data := value_data
        value_score := py_round (value_data.estimated_value / v.price * 100) 1 })

/-- The `results` list of `compare_vehicles`, in input order: the loop appends
one scored entry per vehicle, and an iteration that raises
(`ZeroDivisionError` on a zero price) aborts the whole call (`none`). -/
def scored_results (vehicles : List Vehicle) (now_year : ℤ) :
    Option (List ComparedVehicle) :=
  match vehicles with
  | [] => some []
  | v :: rest => do
    let c ← score_vehicle v now_year
    let t ← scored_results rest now_year
    pure (c :: t)

/-- Stable insertion into a list sorted by descending `value_score`: the new
element goes after every element whose score is `≥` its own. -/
def insort (x : ComparedVehicle) : List ComparedVehicle → List ComparedVehicle
  | [] => [x]
  | y :: t => if x.value_score ≥ y.value_score then x :: y :: t else y :: insort x t

/-- Stable sort by descending `value_score`, modelling Python's stable
`sorted(results, key=lambda x: x['value_score'], reverse=True)`. -/
def sort_by_score_desc : List ComparedVehicle → List ComparedVehicle
  | [] => []
  | x :: t => insort x (sort_by_score_desc t)

/-- `PriceCalculator.compare_vehicles`. -/
def compare_vehicles (vehicles : List Vehicle) (now_year : ℤ) :
    Option (List ComparedVehicle) :=
  (scored_results vehicles now_year).map sort_by_score_desc

/-- The `condition_map` of `get_price_suggestion`. -/
def condition_map : List (String × VehicleCondition) :=
  [("excellent", VehicleCondition.EXCELLENT), ("good", VehicleCondition.GOOD),
   ("fair", VehicleCondition.FAIR), ("poor", VehicleCondition.POOR)]

/-- The `base_msrp` table of `get_price_suggestion`. -/
def base_msrp : List (String × ℚ) :=
  [("toyota", 35000), ("honda", 32000), ("ford", 38000), ("chevrolet", 36000),
   ("bmw", 55000), ("mercedes", 60000), ("audi", 52000), ("tesla", 50000),
   ("default", 35000)]

/-- The dict returned by `get_price_suggestion`. -/
structure PriceSuggestion where
  suggested_min : ℚ
  suggested_price : ℚ
  suggested_max : ℚ
  condition : String
  vehicle_age : ℤ
deriving DecidableEq

/-- `PriceCalculator.get_price_suggestion`; Python's default is
`condition='good'`, passed explicitly here. As with `MAKE_FACTORS`, the
`'default'` key of `base_msrp` is present, so the inner access always
succeeds (its `getD 0` arm is unreachable) and yields `35000`. -/
def get_price_suggestion (make : String) (year : ℤ) (condition : String)
    (now_year : ℤ) : PriceSuggestion :=
  let msrp := (base_msrp.lookup (py_lower make)).getD ((base_msrp.lookup "default").getD 0)
  let cond := (condition_map.lookup (py_lower condition)).getD VehicleCondition.GOOD
  let depreciation := DepreciationModel.init msrp year now_year
  let base_value := depreciation.calculate_current_value
  let adjusted_value := base_value * cond.value
  { suggested_min := py_round (adjusted_value * 0.95) 2
    suggested_price := py_round adjusted_value 2
    suggested_max := py_round (adjusted_value * 1.05) 2
    condition := condition
    vehicle_age := depreciation.age }

end PriceCalculator

namespace PriceCalculator

/-- The ordering produced by `sorted(..., key=lambda x: x['value_score'],
reverse=True)`: earlier elements have scores that are `≥` later ones. -/
def by_desc_score (a b : ComparedVehicle) : Prop :=
  b.value_score ≤ a.value_score

/-- Membership predicate used to state sort stability: elements whose
`value_score` equals `s`. -/
def score_is (s : ℚ) (r : ComparedVehicle) : Bool :=
  decide (r.value_score = s)

theorem insort_perm (x : ComparedVehicle) (l : List ComparedVehicle) :
    (insort x l).Perm (x :: l) := by
  induction l with
  | nil => exact List.Perm.refl _
  | cons y t ih =>
    unfold insort
    split
    · exact List.Perm.refl _
    · exact (ih.cons y).trans (List.Perm.swap x y t)

theorem mem_insort {a x : ComparedVehicle} {l : List ComparedVehicle} :
    a ∈ insort x l ↔ a = x ∨ a ∈ l := by
  rw [(insort_perm x l).mem_iff, List.mem_cons]

theorem insort_pairwise {x : ComparedVehicle} {l : List ComparedVehicle}
    (h : l.Pairwise by_desc_score) : (insort x l).Pairwise by_desc_score := by
  induction l with
  | nil => simp [insort]
  | cons y t ih =>
    unfold insort
    split
    · rename_i hge
      refine List.Pairwise.cons (fun z hz => ?_) h
      rcases List.mem_cons.mp hz with rfl | hz'
      · exact hge
      · exact le_trans (List.rel_of_pairwise_cons h hz') hge
    · rename_i hlt
      push_neg at hlt
      refine List.Pairwise.cons (fun z hz => ?_) (ih (List.Pairwise.of_cons h))
      rcases mem_insort.mp hz with rfl | hz'
      · exact le_of_lt hlt
      · exact List.rel_of_pairwise_cons h hz'

theorem sort_by_score_desc_pairwise (l : List ComparedVehicle) :
    (sort_by_score_desc l).Pairwise by_desc_score := by
  induction l with
  | nil => simp [sort_by_score_desc]
  | cons x t ih => exact insort_pairwise ih

theorem sort_by_score_desc_perm (l : List ComparedVehicle) :
    (sort_by_score_desc l).Perm l := by
  induction l with
  | nil => exact List.Perm.refl _
  | cons x t ih => exact (insort_perm x (sort_by_score_desc t)).trans (ih.cons x)

theorem filter_insort_eq {x : ComparedVehicle} {s : ℚ} (l : List ComparedVehicle)
    (hx : x.value_score = s) :
    (insort x l).filter (score_is s) = x :: l.filter (score_is s) := by
  induction l with
  | nil => simp [insort, List.filter, score_is, hx]
  | cons y t ih =>
    unfold insort
    split
    · simp [List.filter_cons, score_is, hx]
    · rename_i hlt
      push_neg at hlt
      have hy : score_is s y = false := by
        simp only [score_is, decide_eq_false_iff_not]
        intro hys
        rw [hys, ← hx] at hlt
        exact absurd hlt (lt_irrefl _)
      simp only [List.filter_cons, hy, ih]
      simp [hy]

theorem filter_insort_ne {x : ComparedVehicle} {s : ℚ} (l : List ComparedVehicle)
    (hx : x.value_score ≠ s) :
    (insort x l).filter (score_is s) = l.filter (score_is s) := by
  have hxf : score_is s x = false := by
    simp [score_is, hx]
  induction l with
  | nil => simp [insort, List.filter, hxf]
  | cons y t ih =>
    unfold insort
    split
    · simp [List.filter_cons, hxf]
    · simp only [List.filter_cons, ih]

theorem filter_sort_by_score_desc (l : List ComparedVehicle) (s : ℚ) :
    (sort_by_score_desc l).filter (score_is s) = l.filter (score_is s) := by
  induction l with
  | nil => rfl
  | cons x t ih =>
    show (insort x (sort_by_score_desc t)).filter (score_is s) = _
    by_cases hx : x.value_score = s
    · rw [filter_insort_eq _ hx, ih, List.filter_cons]
      simp [score_is, hx]
    · rw [filter_insort_ne _ hx, ih, List.filter_cons]
      simp [score_is, hx]

end PriceCalculator

namespace PriceCalculator

theorem score_vehicle_isSome (v : Vehicle) (now : ℤ) (h : v.price ≠ 0) :
    (score_vehicle v now).isSome := by
  simp [score_vehicle, calculate_market_value,
    DepreciationModel.get_depreciation_percentage, DepreciationModel.init, h]

theorem scored_results_isSome (vehicles : List Vehicle) (now : ℤ)
    (h : ∀ v ∈ vehicles, v.price ≠ 0) :
    ∃ L, scored_results vehicles now = some L := by
  induction vehicles with
  | nil => exact ⟨[], rfl⟩
  | cons v t ih =>
    obtain ⟨L, hL⟩ := ih (fun w hw => h w (List.mem_cons_of_mem _ hw))
    obtain ⟨c, hc⟩ := Option.isSome_iff_exists.mp
      (score_vehicle_isSome v now (h v (List.mem_cons_self v t)))
    refine ⟨c :: L, ?_⟩
    simp [scored_results, hc, hL]

end PriceCalculator

/-! ## Claims -/

/-- C1 (amended): for every `original_price > 0` and `model_year ≤ current_year`,
`calculate_current_value()` is at most `original_price` and at least
`original_price * 0.10`, each up to the half-cent slack introduced by the final
rounding to 2 decimal places (the exact bounds of the claim fail; see the
counterexample). -/
theorem C1_current_value_bounds (op : ℚ) (year now : ℤ)
    (hop : 0 < op) (hy : year ≤ now) :
    (DepreciationModel.init op year now).calculate_current_value ≤ op + 1/200 ∧
    op * 0.10 - 1/200 ≤ (DepreciationModel.init op year now).calculate_current_value := by
  have hop' : (0:ℚ) ≤ op := le_of_lt hop
  unfold DepreciationModel.calculate_current_value
  simp only [DepreciationModel.init]
  constructor
  · have h1 : loop_value op (now - year).toNat ≤ op := loop_value_le_self hop' _
    have h2 : max (loop_value op (now - year).toNat) (op * 0.10) ≤ op :=
      max_le h1 (by linarith)
    have h3 := py_round_le (max (loop_value op (now - year).toNat) (op * 0.10)) 2
    have h4 : (1:ℚ) / (2 * 10 ^ 2) = 1/200 := by norm_num
    linarith
  · have h2 : op * 0.10 ≤ max (loop_value op (now - year).toNat) (op * 0.10) :=
      le_max_right _ _
    have h3 := le_py_round (max (loop_value op (now - year).toNat) (op * 0.10)) 2
    have h4 : (1:ℚ) / (2 * 10 ^ 2) = 1/200 := by norm_num
    linarith

/-- C1 witness: the amended bounds at `original_price = 100`, `year = 2020`,
`now = 2025`. -/
theorem C1_current_value_bounds_witness :
    (0:ℚ) < 100 ∧ (2020:ℤ) ≤ 2025 ∧
    ((DepreciationModel.init 100 2020 2025).calculate_current_value ≤ 100 + 1/200 ∧
      (100:ℚ) * 0.10 - 1/200 ≤
        (DepreciationModel.init 100 2020 2025).calculate_current_value) :=
  ⟨by norm_num, by norm_num, C1_current_value_bounds 100 2020 2025 (by norm_num) (by norm_num)⟩

/-- C1 counterexample: at `original_price = 0.019` (a price below one cent is
positive) and age 0, the returned value `round(0.019, 2) = 0.02` exceeds
`original_price`, so the claimed upper bound `≤ original_price` is false. -/
theorem C1_current_value_bounds_cex :
    (0:ℚ) < 0.019 ∧ (2025:ℤ) ≤ 2025 ∧
    ¬ ((DepreciationModel.init 0.019 2025 2025).calculate_current_value ≤ 0.019) := by
  refine ⟨by norm_num, le_refl _, ?_⟩
  have hcv : (DepreciationModel.init 0.019 2025 2025).calculate_current_value = 0.02 := by
    unfold DepreciationModel.calculate_current_value
    simp only [DepreciationModel.init]
    norm_num [loop_value, List.range', py_round, rhe]
  rw [hcv]
  norm_num

/-- C3 (amended): for every positive `original_price` that is a whole number of
cents (an integer multiple of 0.01 — which every Python price rendered at two
decimals is), age 0 (`model_year == current_year`) yields
`calculate_current_value() == original_price` exactly. Without the whole-cents
condition the final `round(…, 2)` can change the value (see the
counterexample). -/
theorem C3_age_zero_exact (op : ℚ) (year now : ℤ) (hop : 0 < op)
    (hyear : year = now) (k : ℤ) (hk : op = (k : ℚ) / 100) :
    (DepreciationModel.init op year now).calculate_current_value = op := by
  subst hyear
  unfold DepreciationModel.calculate_current_value
  simp only [DepreciationModel.init]
  rw [sub_self]
  simp only [Int.toNat_zero, loop_value_zero]
  rw [max_eq_left (by linarith : op * 0.10 ≤ op)]
  exact py_round_eq_self k (by rw [hk]; norm_num)

/-- C3 witness: `original_price = 30000` (= 3000000 cents), `year = now = 2025`. -/
theorem C3_age_zero_exact_witness :
    (0:ℚ) < 30000 ∧ (2025:ℤ) = 2025 ∧ (30000:ℚ) = (3000000:ℤ) / 100 ∧
    (DepreciationModel.init 30000 2025 2025).calculate_current_value = 30000 :=
  ⟨by norm_num, rfl, by norm_num,
    C3_age_zero_exact 30000 2025 2025 (by norm_num) rfl 3000000 (by norm_num)⟩

/-- C3 counterexample: `original_price = 0.019` is positive and the model year
equals the current year, yet `calculate_current_value()` returns
`round(0.019, 2) = 0.02 ≠ 0.019`. -/
theorem C3_age_zero_exact_cex :
    (0:ℚ) < 0.019 ∧
    (DepreciationModel.init 0.019 2025 2025).calculate_current_value = 0.02 ∧
    (0.02 : ℚ) ≠ 0.019 := by
  refine ⟨by norm_num, ?_, by norm_num⟩
  unfold DepreciationModel.calculate_current_value
  simp only [DepreciationModel.init]
  norm_num [loop_value, List.range', py_round, rhe]

/-- C7: `get_total_depreciation() + calculate_current_value()` equals
`original_price` up to the rounding at 2 decimal places, i.e. within half a
cent. -/
theorem C7_total_plus_current (op : ℚ) (year now : ℤ) (hop : 0 < op) :
    |(DepreciationModel.init op year now).get_total_depreciation +
      (DepreciationModel.init op year now).calculate_current_value - op| ≤ 1/200 := by
  set cv := (DepreciationModel.init op year now).calculate_current_value with hcv
  unfold DepreciationModel.get_total_depreciation
  rw [← hcv]
  have h1 : (DepreciationModel.init op year now).original_price = op := rfl
  rw [h1]
  have h2 : py_round (op - cv) 2 + cv - op = py_round (op - cv) 2 - (op - cv) := by ring
  rw [h2]
  have h3 := abs_py_round_sub_le (op - cv) 2
  have h4 : (1:ℚ) / (2 * 10 ^ 2) = 1/200 := by norm_num
  linarith

/-- C7 witness: the identity at `original_price = 100`, `year = 2020`,
`now = 2025`. -/
theorem C7_total_plus_current_witness :
    (0:ℚ) < 100 ∧
    |(DepreciationModel.init 100 2020 2025).get_total_depreciation +
      (DepreciationModel.init 100 2020 2025).calculate_current_value - 100| ≤ 1/200 :=
  ⟨by norm_num, C7_total_plus_current 100 2020 2025 (by norm_num)⟩

/-- C8: `get_depreciation_percentage()` raises `ZeroDivisionError` (modelled
as `none`) exactly when `original_price = 0`; otherwise it returns
`round(total_depreciation / original_price * 100, 1)`. -/
theorem C8_percentage_div_by_zero (op : ℚ) (year now : ℤ) :
    ((DepreciationModel.init op year now).get_depreciation_percentage = none ↔ op = 0) ∧
    (op ≠ 0 → (DepreciationModel.init op year now).get_depreciation_percentage =
      some (py_round ((DepreciationModel.init op year now).get_total_depreciation
        / op * 100) 1)) := by
  unfold DepreciationModel.get_depreciation_percentage
  have h1 : (DepreciationModel.init op year now).original_price = op := rfl
  rw [h1]
  constructor
  · by_cases h : op = 0 <;> simp [h]
  · intro h
    rw [if_neg h]

/-- C8 witness: at `original_price = 100` no fault is raised and the rounded
percentage is returned. -/
theorem C8_percentage_div_by_zero_witness :
    (100:ℚ) ≠ 0 ∧
    (DepreciationModel.init 100 2020 2025).get_depreciation_percentage =
      some (py_round ((DepreciationModel.init 100 2020 2025).get_total_depreciation
        / 100 * 100) 1) :=
  ⟨by norm_num, (C8_percentage_div_by_zero 100 2020 2025).2 (by norm_num)⟩

/-- C10: for ages 1 through 15, the schedule entry at index `age` equals
`calculate_current_value()` for the same inputs. -/
theorem C10_schedule_agrees (op : ℚ) (year now : ℤ) (hop : 0 < op)
    (h1 : 1 ≤ now - year) (h2 : now - year ≤ 15) :
    (DepreciationModel.init op year now).get_depreciation_schedule.lookup
        (now - year).toNat =
      some ((DepreciationModel.init op year now).calculate_current_value) := by
  have hage : (DepreciationModel.init op year now).age = now - year := rfl
  have hk1 : 1 ≤ (now - year).toNat := by omega
  have hk2 : (now - year).toNat ≤
      (min ((DepreciationModel.init op year now).age + 6) 16 - 1).toNat := by
    rw [hage]; omega
  rw [schedule_lookup_pos _ hk1 hk2]
  unfold DepreciationModel.calculate_current_value
  rfl

/-- C10 witness: age 5 (`year = 2020`, `now = 2025`) at `original_price = 100`. -/
theorem C10_schedule_agrees_witness :
    (0:ℚ) < 100 ∧ (1:ℤ) ≤ 2025 - 2020 ∧ (2025:ℤ) - 2020 ≤ 15 ∧
    (DepreciationModel.init 100 2020 2025).get_depreciation_schedule.lookup
        ((2025:ℤ) - 2020).toNat =
      some ((DepreciationModel.init 100 2020 2025).calculate_current_value) :=
  ⟨by norm_num, by norm_num, by norm_num,
    C10_schedule_agrees 100 2020 2025 (by norm_num) (by norm_num) (by norm_num)⟩

/-- C2 (amended): for every `original_price ≥ 0.05` and every `model_year`, the
schedule has `original_price` at index 0, its values are non-increasing in the
index, and no value falls below `original_price * 0.10`. (For positive prices
below five cents the claim fails: rounding each entry to 2 decimals can round
index 1 up above index 0 and can round entries below the 10% floor; see the
counterexample.) -/
theorem C2_schedule_invariants (op : ℚ) (year now : ℤ) (hop : 1/20 ≤ op) :
    (DepreciationModel.init op year now).get_depreciation_schedule.lookup 0 = some op ∧
    (∀ i j vi vj,
      (DepreciationModel.init op year now).get_depreciation_schedule.lookup i = some vi →
      (DepreciationModel.init op year now).get_depreciation_schedule.lookup j = some vj →
      i ≤ j → vj ≤ vi) ∧
    (∀ p ∈ (DepreciationModel.init op year now).get_depreciation_schedule,
      op * 0.10 ≤ p.2) := by
  have hop0 : (0:ℚ) ≤ op := by linarith
  have hmop : (DepreciationModel.init op year now).original_price = op := rfl
  have h4 : (1:ℚ) / (2 * 10 ^ 2) = 1/200 := by norm_num
  refine ⟨?_, ?_, ?_⟩
  · have h := schedule_lookup_zero (DepreciationModel.init op year now)
    rw [hmop] at h
    exact h
  · intro i j vi vj hi hj hij
    have Hi := schedule_lookup_inv (DepreciationModel.init op year now) hi
    have Hj := schedule_lookup_inv (DepreciationModel.init op year now) hj
    rw [hmop] at Hi Hj
    rcases Hi with ⟨hi0, hvi⟩ | ⟨hi1, hiN, hvi⟩
    · rcases Hj with ⟨hj0, hvj⟩ | ⟨hj1, hjN, hvj⟩
      · rw [hvi, hvj]
      · have hlvj : loop_value op j ≤ op * 0.8 := loop_value_one_le hop0 hj1
        have hmax : max (loop_value op j) (op * 0.10) ≤ op * 0.8 :=
          max_le hlvj (by linarith)
        have h3 := py_round_le (max (loop_value op j) (op * 0.10)) 2
        have h5 := py_round_mono 2 hmax
        rw [hvi, hvj]
        linarith
    · rcases Hj with ⟨hj0, hvj⟩ | ⟨hj1, hjN, hvj⟩
      · exact absurd (by omega : i ≤ 0) (by omega)
      · rw [hvi, hvj]
        exact py_round_mono 2
          (max_le_max (loop_value_antitone hop0 hij) (le_refl (op * 0.10)))
  · intro p hp
    rw [get_depreciation_schedule_eq] at hp
    rcases List.mem_cons.mp hp with rfl | hp'
    · show op * 0.10 ≤ op
      linarith
    · obtain ⟨y, hy, rfl⟩ := List.mem_map.mp hp'
      have hyr := List.mem_range'_1.mp hy
      have hy15 : y ≤ 15 := by omega
      have hlv : op * (1/5) ≤ loop_value op y := loop_value_ge_of_le_15 hop0 hy15
      have hmax : op * (1/5) ≤ max (loop_value op y) (op * 0.10) :=
        le_trans hlv (le_max_left _ _)
      have h3 := le_py_round (max (loop_value op y) (op * 0.10)) 2
      show op * 0.10 ≤ py_round (max (loop_value
        (DepreciationModel.init op year now).original_price y)
        ((DepreciationModel.init op year now).original_price * 0.10)) 2
      rw [hmop]
      linarith

/-- C2 witness: the invariants at `original_price = 100`. -/
theorem C2_schedule_invariants_witness :
    (1:ℚ)/20 ≤ 100 ∧
    (DepreciationModel.init 100 2020 2025).get_depreciation_schedule.lookup 0 =
      some 100 :=
  ⟨by norm_num, (C2_schedule_invariants 100 2020 2025 (by norm_num)).1⟩

/-- C2 counterexample: at the positive price `0.019`, the schedule starts at
`0.019` but its index-1 entry rounds up to `0.02`, so the values are not
non-increasing from index 0 to index 1. -/
theorem C2_schedule_invariants_cex :
    (0:ℚ) < 0.019 ∧
    (DepreciationModel.init 0.019 2024 2025).get_depreciation_schedule.lookup 0 =
      some 0.019 ∧
    (DepreciationModel.init 0.019 2024 2025).get_depreciation_schedule.lookup 1 =
      some 0.02 ∧
    ¬ ((0.02:ℚ) ≤ 0.019) := by
  refine ⟨by norm_num, schedule_lookup_zero _, ?_, by norm_num⟩
  have h2 : (1:ℕ) ≤ (min ((DepreciationModel.init 0.019 2024 2025).age + 6) 16 - 1).toNat := by
    show (1:ℕ) ≤ (min ((2025:ℤ) - 2024 + 6) 16 - 1).toNat
    norm_num
  rw [@schedule_lookup_pos (DepreciationModel.init 0.019 2024 2025) 1 (le_refl 1) h2]
  congr 1
  have hmop : (DepreciationModel.init 0.019 2024 2025).original_price = 0.019 := rfl
  rw [hmop]
  have hl : loop_value 0.019 1 = 0.019 * (1 - rate_for 1) := loop_value_succ 0.019 0
  rw [hl, rate_for_one]
  norm_num [py_round, rhe]

theorem lookup_eq_none_of_not_mem {α β : Type} [BEq α] [LawfulBEq α]
    {l : List (α × β)} {a : α} (h : a ∉ l.map Prod.fst) : l.lookup a = none := by
  induction l with
  | nil => rfl
  | cons p t ih =>
    obtain ⟨k, v⟩ := p
    rw [List.lookup_cons]
    have hk : (a == k) = false := by
      simp only [beq_eq_false_iff_ne]
      intro hak
      exact h (by simp [hak])
    rw [hk]
    exact ih (fun hmem => h (by simp [List.map_cons]; exact Or.inr (by simpa using hmem)))

/-- C4: the mileage factor of `calculate_market_value` follows the guarded
formula (`1 + (expected - actual) / expected * 0.1` when `expected > 0`, `1`
otherwise, so no division by zero occurs), and the applied factor is always
clamped within `[0.7, 1.3]`; moreover every successful `calculate_market_value`
result reports exactly this factor in its mileage adjustment. -/
theorem C4_mileage_factor (age : ℤ) (mileage : ℚ) :
    (0.7 ≤ PriceCalculator.mileage_factor_of age mileage ∧
      PriceCalculator.mileage_factor_of age mileage ≤ 1.3) ∧
    ((age : ℚ) * 12000 > 0 →
      PriceCalculator.mileage_factor_of age mileage =
        max 0.7 (min 1.3
          (1 + ((age : ℚ) * 12000 - mileage) / ((age : ℚ) * 12000) * 0.1))) ∧
    (¬ ((age : ℚ) * 12000 > 0) →
      PriceCalculator.mileage_factor_of age mileage = 1) ∧
    (∀ (make model : String) (year : ℤ) (base_price : ℚ)
        (condition : VehicleCondition) (now : ℤ)
        (r : PriceCalculator.ValuationResult),
      PriceCalculator.calculate_market_value make model year base_price condition
          mileage now = some r →
      r.mileage_adjustment =
        (PriceCalculator.mileage_factor_of (now - year) mileage - 1) * 100) := by
  refine ⟨⟨?_, ?_⟩, ?_, ?_, ?_⟩
  · exact le_max_left _ _
  · exact max_le (by norm_num) (min_le_left _ _)
  · intro h
    simp only [PriceCalculator.mileage_factor_of]
    rw [if_pos h]
  · intro h
    simp only [PriceCalculator.mileage_factor_of]
    rw [if_neg h]
    norm_num
  · intro make model year base_price condition now r hr
    simp only [PriceCalculator.calculate_market_value] at hr
    cases hdp : (DepreciationModel.init base_price year now).get_depreciation_percentage with
    | none => rw [hdp] at hr; simp at hr
    | some dp =>
      rw [hdp] at hr
      simp only [Option.map_some'] at hr
      obtain rfl := Option.some.inj hr
      rfl

/-- C4 witness: age 5, mileage 80000: the expected mileage is positive and the
factor follows the clamped formula. -/
theorem C4_mileage_factor_witness :
    ((5:ℤ) : ℚ) * 12000 > 0 ∧
    PriceCalculator.mileage_factor_of 5 80000 =
      max 0.7 (min 1.3
        (1 + (((5:ℤ) : ℚ) * 12000 - 80000) / (((5:ℤ) : ℚ) * 12000) * 0.1)) :=
  ⟨by norm_num, (C4_mileage_factor 5 80000).2.1 (by norm_num)⟩

/-- C5: `get_price_suggestion('toyota', current_year - 1, 'good')` returns
suggested price 23800.0 with band [22610.0, 24990.0]: MSRP 35000, one year at
rate 0.20 gives 28000, condition multiplier 0.85 gives 23800, and ±5% around
it. -/
theorem C5_price_suggestion_toyota (now : ℤ) :
    PriceCalculator.get_price_suggestion "toyota" (now - 1) "good" now =
      { suggested_min := 22610, suggested_price := 23800, suggested_max := 24990,
        condition := "good", vehicle_age := 1 } := by
  have hmsrp : (PriceCalculator.base_msrp.lookup (py_lower "toyota")).getD
      ((PriceCalculator.base_msrp.lookup "default").getD 0) = 35000 := by decide
  have hcond : (PriceCalculator.condition_map.lookup (py_lower "good")).getD
      VehicleCondition.GOOD = VehicleCondition.GOOD := by decide
  simp only [PriceCalculator.get_price_suggestion, hmsrp, hcond]
  norm_num [DepreciationModel.init, DepreciationModel.calculate_current_value,
    VehicleCondition.value, loop_value, List.range', py_round, rhe, rate_for_one,
    show now - (now - 1) = (1:ℤ) by ring]

/-- C9: unknown inputs are substituted with defaults and never raise: for every
make whose lower-cased form is not a key of `MAKE_FACTORS`,
`calculate_market_value` uses factor 1.00, and for every make and every
condition string whose lower-cased form is not a grade name,
`get_price_suggestion` uses the `GOOD` grade (multiplier 0.85). Each part
carries only its own hypothesis, so the condition default holds for known
makes too. -/
theorem C9_unknown_defaults (make condition : String) :
    (py_lower make ∉ MAKE_FACTORS.map Prod.fst →
      PriceCalculator.make_factor_of make = 1.00) ∧
    (py_lower condition ∉ PriceCalculator.condition_map.map Prod.fst →
      ∀ year now : ℤ,
        (PriceCalculator.get_price_suggestion make year condition now).suggested_price =
          py_round
            ((DepreciationModel.init
                ((PriceCalculator.base_msrp.lookup (py_lower make)).getD
                  ((PriceCalculator.base_msrp.lookup "default").getD 0))
                year now).calculate_current_value * VehicleCondition.GOOD.value) 2) := by
  constructor
  · intro hm
    unfold PriceCalculator.make_factor_of
    rw [lookup_eq_none_of_not_mem hm]
    simp [MAKE_FACTORS, List.lookup_cons]
  · intro hc year now
    simp only [PriceCalculator.get_price_suggestion]
    rw [lookup_eq_none_of_not_mem hc]
    rfl

/-- C9 witness: the unknown make `'zz'` gets factor 1.00, and the known make
`'toyota'` with the unknown condition `'shiny'` is priced with the `GOOD`
multiplier. -/
theorem C9_unknown_defaults_witness :
    (py_lower "zz" ∉ MAKE_FACTORS.map Prod.fst) ∧
    (py_lower "shiny" ∉ PriceCalculator.condition_map.map Prod.fst) ∧
    PriceCalculator.make_factor_of "zz" = 1.00 ∧
    (PriceCalculator.get_price_suggestion "toyota" 2024 "shiny" 2025).suggested_price =
      py_round
        ((DepreciationModel.init
            ((PriceCalculator.base_msrp.lookup (py_lower "toyota")).getD
              ((PriceCalculator.base_msrp.lookup "default").getD 0))
            2024 2025).calculate_current_value * VehicleCondition.GOOD.value) 2 :=
  ⟨by decide, by decide,
    (C9_unknown_defaults "zz" "shiny").1 (by decide),
    (C9_unknown_defaults "toyota" "shiny").2 (by decide) 2024 2025⟩

/-- C6 (amended): for every input list of vehicles whose prices are nonzero
(a zero price makes the call raise `ZeroDivisionError`, see the
counterexample), `compare_vehicles` returns the per-vehicle valuation results
sorted in descending order of `value_score`, and vehicles with equal
`value_score` keep their relative input order: the returned list is a
permutation of the in-order scored results whose restriction to any fixed
score equals that of the in-order list. -/
theorem C6_compare_vehicles_sorted_stable (vehicles : List PriceCalculator.Vehicle)
    (now : ℤ) (h : ∀ v ∈ vehicles, v.price ≠ 0) :
    ∃ L res, PriceCalculator.scored_results vehicles now = some L ∧
      PriceCalculator.compare_vehicles vehicles now = some res ∧
      res.Pairwise PriceCalculator.by_desc_score ∧
      res.Perm L ∧
      (∀ s : ℚ, res.filter (PriceCalculator.score_is s) =
        L.filter (PriceCalculator.score_is s)) := by
  obtain ⟨L, hL⟩ := PriceCalculator.scored_results_isSome vehicles now h
  refine ⟨L, PriceCalculator.sort_by_score_desc L, hL, ?_, ?_, ?_, ?_⟩
  · simp [PriceCalculator.compare_vehicles, hL]
  · exact PriceCalculator.sort_by_score_desc_pairwise L
  · exact PriceCalculator.sort_by_score_desc_perm L
  · exact fun s => PriceCalculator.filter_sort_by_score_desc L s

/-- C6 witness: a concrete two-vehicle list with nonzero prices. -/
theorem C6_compare_vehicles_sorted_stable_witness :
    (∀ v ∈ [PriceCalculator.Vehicle.mk "toyota" "corolla" 2022 20000,
            PriceCalculator.Vehicle.mk "ford" "focus" 2022 20000], v.price ≠ 0) ∧
    (∃ L res,
      PriceCalculator.scored_results
        [PriceCalculator.Vehicle.mk "toyota" "corolla" 2022 20000,
         PriceCalculator.Vehicle.mk "ford" "focus" 2022 20000] 2025 = some L ∧
      PriceCalculator.compare_vehicles
        [PriceCalculator.Vehicle.mk "toyota" "corolla" 2022 20000,
         PriceCalculator.Vehicle.mk "ford" "focus" 2022 20000] 2025 = some res ∧
      res.Pairwise PriceCalculator.by_desc_score ∧
      res.Perm L ∧
      (∀ s : ℚ, res.filter (PriceCalculator.score_is s) =
        L.filter (PriceCalculator.score_is s))) := by
  have h : ∀ v ∈ [PriceCalculator.Vehicle.mk "toyota" "corolla" 2022 20000,
      PriceCalculator.Vehicle.mk "ford" "focus" 2022 20000], v.price ≠ 0 := by
    intro v hv
    rcases List.mem_cons.mp hv with rfl | hv2
    · norm_num
    · rcases List.mem_cons.mp hv2 with rfl | hv3
      · norm_num
      · simp at hv3
  exact ⟨h, C6_compare_vehicles_sorted_stable _ 2025 h⟩

/-- C6 counterexample: a list containing a vehicle with price 0 makes
`compare_vehicles` raise `ZeroDivisionError` (modelled as `none`) instead of
returning a sorted result list. -/
theorem C6_compare_vehicles_sorted_stable_cex :
    PriceCalculator.compare_vehicles
      [PriceCalculator.Vehicle.mk "ford" "focus" 2025 0] 2025 = none := by
  simp [PriceCalculator.compare_vehicles, PriceCalculator.scored_results,
    PriceCalculator.score_vehicle, PriceCalculator.calculate_market_value,
    DepreciationModel.get_depreciation_percentage, DepreciationModel.init]
